import Mathlib

/-!
# iteration_benchmark: a shallow embedding of `main.cpp`

The program builds one logical dataset of `NUM_ITEMS` random triangles in five
memory arrangements and reports, for each of them, the mean time of a full scan
that sums the triangle areas.

Conventions of the embedding

* `float`/`double` values are exact rationals (`ℚ`); every finite float is one.
* `std::mt19937` and the two standard distributions are library code: they are a
  parameter (`Engine`).
* `NUM_ITEMS` and `SEED` are parameters (`N`, `SEED`); the shipped constants
  are `50000000` and `42`.
* An `int` has 32 bits. The counter `int i` of the loops over `NUM_ITEMS` stops
  the run (`none`) when `++i` would leave the range of `int`; the counters of
  `benchmark` cannot reach that point, their bound being an `int` itself.
* The clock, the passing of time, `sizeof(Triangle)` and the text that the
  stream writes for a `double` belong to the surroundings (`Env`).
* The heap is explicit: addresses are positions in per-type allocation tables,
  an access through an address that was never allocated returns `none`, and so
  does `delete[]` on a buffer that is not live.
* Memory is unbounded: `new` never fails.
-/

namespace IterationBenchmark

/-! ## Triangle -/

/-- The record `struct Triangle`: six coordinates, in declaration order. -/
structure Triangle where
  x0 : ℚ
  y0 : ℚ
  x1 : ℚ
  y1 : ℚ
  x2 : ℚ
  y2 : ℚ
deriving DecidableEq, Repr

namespace Triangle

/-- The method `Triangle::area`:
`0.5 * std::abs(x0 * (y1 - y2) + x1 * (y2 - y0) + x2 * (y0 - y1))`. -/
def area (t : Triangle) : ℚ :=
  0.5 * |t.x0 * (t.y1 - t.y2) + t.x1 * (t.y2 - t.y0) + t.x2 * (t.y0 - t.y1)|

/-- The triangle whose vertices are `a`, `b`, `c`, in that order. -/
def ofVertices (a b c : ℚ × ℚ) : Triangle :=
  ⟨a.1, a.2, b.1, b.2, c.1, c.2⟩

/-- All six coordinates lie in `[-1, 1]`. -/
def InUnitBox (t : Triangle) : Prop :=
  (-1 ≤ t.x0 ∧ t.x0 ≤ 1) ∧ (-1 ≤ t.y0 ∧ t.y0 ≤ 1) ∧
  (-1 ≤ t.x1 ∧ t.x1 ≤ 1) ∧ (-1 ≤ t.y1 ∧ t.y1 ≤ 1) ∧
  (-1 ≤ t.x2 ∧ t.x2 ≤ 1) ∧ (-1 ≤ t.y2 ∧ t.y2 ≤ 1)

instance (t : Triangle) : Decidable t.InUnitBox := by
  unfold InUnitBox; infer_instance

/-- The three vertices lie on one line `p + s • d` (a degenerate line `d = 0`
and repeated parameters are allowed, so coincident vertices are included). -/
def Collinear (t : Triangle) : Prop :=
  ∃ px py dx dy s0 s1 s2 : ℚ,
    t.x0 = px + s0 * dx ∧ t.y0 = py + s0 * dy ∧
    t.x1 = px + s1 * dx ∧ t.y1 = py + s1 * dy ∧
    t.x2 = px + s2 * dx ∧ t.y2 = py + s2 * dy

end Triangle

/-- The accumulation of every workload: `sum = 0.0; for (...) sum += it.area();`. -/
def sumAreas (ts : List Triangle) : ℚ :=
  ts.foldl (fun sum it => sum + it.area) 0


/-! ## Timer and benchmark -/

/-- The monotonic clock `std::chrono::high_resolution_clock` as seen from a
program state `S`: `now` reads a time point, in ticks, and may change the state;
`period_ms` is the length of one tick in milliseconds. -/
structure Clock (S : Type) where
  now : S → Int × S
  period_ms : ℚ

/-- The stopwatch `class Timer`: two time points, both at the epoch after
default construction. -/
structure Timer where
  t0 : Int := 0
  t1 : Int := 0
deriving DecidableEq, Repr

namespace Timer

/-- The method `Timer::start`: `t0 = clock::now()`. -/
def start {S : Type} (clk : Clock S) (timer : Timer) (s : S) : Timer × S :=
  ({ timer with t0 := (clk.now s).1 }, (clk.now s).2)

/-- The method `Timer::stop`: `t1 = clock::now()`. -/
def stop {S : Type} (clk : Clock S) (timer : Timer) (s : S) : Timer × S :=
  ({ timer with t1 := (clk.now s).1 }, (clk.now s).2)

/-- The method `Timer::elapsed_ms`: the duration `t1 - t0` in milliseconds. -/
def elapsed_ms {S : Type} (clk : Clock S) (timer : Timer) : ℚ :=
  ((timer.t1 - timer.t0 : Int) : ℚ) * clk.period_ms

end Timer

/-- The loop `for (int i = i0; i < n; i++) body(i);` from the counter value `i`
on. A body that does not return (`none`) ends the run. -/
def forLoop {S : Type} (n : Int) (body : Int → S → Option S) (i : Int) (s : S) : Option S :=
  if i < n then
    match body i s with
    | none => none
    | some s' => forLoop n body (i + 1) s'
  else some s
termination_by (n - i).toNat
decreasing_by omega

/-- The largest value of an `int`. -/
def INT_MAX : Int := 2147483647

/-- The loop `for (int i = i0; i < n; ++i) body(i);` whose bound `n` is a
`size_t`, from the counter value `i` on. The counter is never negative, so the
comparison is the one of the values. The step `++i` is undefined when `i` is
`INT_MAX`: the run ends there (`none`), as it does when the body does not
return. -/
def forLoopSize {S : Type} (n : Nat) (body : Int → S → Option S) (i : Int) (s : S) : Option S :=
  if i < (n : Int) then
    match body i s with
    | none => none
    | some s' => if i < INT_MAX then forLoopSize n body (i + 1) s' else none
  else some s
termination_by ((n : Int) - i).toNat
decreasing_by omega

/-- The function template `benchmark(iter_count, warmup_count, fun)`. The
quotient is the one of `ℚ`; it is the C++ quotient whenever `iter_count ≠ 0`. -/
def benchmark {S : Type} (clk : Clock S) (iter_count warmup_count : Int)
    (fn : Int → S → Option S) (s : S) : Option (ℚ × S) :=
  match forLoop warmup_count (fun _ => fn (-1)) 0 s with
  | none => none
  | some s1 =>
    let timer : Timer := {}
    let (timer, s2) := timer.start clk s1
    match forLoop iter_count (fun i => fn i) 0 s2 with
    | none => none
    | some s3 =>
      let (timer, s4) := timer.stop clk s3
      some (timer.elapsed_ms clk / iter_count, s4)

/-- Calling the workload once for each argument of a list, in order. -/
def invokeAll {S : Type} (fn : Int → S → Option S) : List Int → S → Option S
  | [], s => some s
  | i :: is, s =>
    match fn i s with
    | none => none
    | some s' => invokeAll fn is s'

/-- What an observer of a run of `benchmark` sees: a call of the workload with
its argument, or a reading of the clock. -/
inductive Event where
  | call (arg : Int)
  | now
deriving DecidableEq, Repr

/-- Whether an event is a call of the workload. -/
def Event.isCall : Event → Bool
  | .call _ => true
  | .now => false

/-- The clock `clk`, recording every reading in a trace carried beside the state. -/
def tracedClock {S : Type} (clk : Clock S) : Clock (S × List Event) where
  now := fun p => ((clk.now p.1).1, ((clk.now p.1).2, p.2 ++ [Event.now]))
  period_ms := clk.period_ms

/-- The workload `fn`, recording every call that returns in the trace. -/
def tracedWorkload {S : Type} (fn : Int → S → Option S) :
    Int → S × List Event → Option (S × List Event) :=
  fun i p => (fn i p.1).map (fun s => (s, p.2 ++ [Event.call i]))

/-- The integers `0, 1, ..., k - 1`. -/
def upTo (k : Nat) : List Int :=
  (List.range k).map Int.ofNat

/-- A concrete clock for evaluating `benchmark`: the state is the number of
ticks elapsed, one tick is one millisecond, and a reading takes one tick. -/
def tickClock : Clock Nat where
  now := fun t => ((t : Int), t + 1)
  period_ms := 1

/-- A concrete workload for evaluating `benchmark`: every call takes ten ticks. -/
def tenTicks : Int → Nat → Option Nat :=
  fun _ t => some (t + 10)

/-! ## The random streams -/

/-- The library side of the two streams, over the state type `σ` of
`std::mt19937`: seeding, and one draw of each distribution object that the
program constructs, which returns the value drawn and the advanced state. -/
structure Engine (σ : Type) where
  /-- The call `std::mt19937(SEED)` or `gen.seed(SEED)`. -/
  seed : Nat → σ
  /-- The call `std::uniform_real_distribution<>(-1.0, 1.0)(g)`, narrowed to `float`. -/
  uniform_real : σ → ℚ × σ
  /-- The call `std::uniform_int_distribution<unsigned int>(1u, 64u)(g)`. -/
  uniform_int : σ → Nat × σ

/-- The `k`-th value, counted from `0`, of the stream that repeats `draw` from
the state `g`. -/
def nthDraw {σ α : Type} (draw : σ → α × σ) (g : σ) (k : Nat) : α :=
  (draw ((fun g => (draw g).2)^[k] g)).1

/-! ## Program state -/

/-- A value of type `const Triangle*`: the address of an element of the vector
`items`, or of a record made by `new Triangle`. -/
inductive TrianglePtr where
  | item (i : Nat)
  | heap (a : Nat)
deriving DecidableEq, Repr

/-- A buffer made by `new char[size]`; `live` until `delete[]` releases it. -/
structure Filler where
  size : Nat
  live : Bool
deriving DecidableEq, Repr

/-- The five memory arrangements, in the order in which `main` measures them. -/
inductive Layout where
  | A | B | C | D | E
deriving DecidableEq, Repr

/-- What the program cannot see of its surroundings, over a type `W` of states
of the outside world (time, caches). -/
structure Env (W : Type) where
  /-- The call `clock::now()`. -/
  now : W → Int × W
  /-- Milliseconds per clock tick. -/
  period_ms : ℚ
  /-- One call `fun(iter)` of a layout's workload, as far as the outside world
  is concerned: the scan takes time and `DoNotOptimize` observes the sum. -/
  pass : Layout → Int → ℚ → W → W
  /-- The time that passes between the previous measurement and the moment at
  which a layout's collection has been built. -/
  build : Layout → W → W
  /-- The value of `sizeof(Triangle)`. -/
  sizeof_Triangle : Nat
  /-- The text that `operator<<` writes for a `double`. -/
  show_double : ℚ → String

/-- The state of the program: the two generators, the outside world, the text
written to `std::cout`, the locals of `main`, and the heap. -/
structure Machine (σ W : Type) where
  gen : σ
  gen2 : σ
  world : W
  cout : String
  /-- The vector `std::vector<Triangle> items`. -/
  items : List Triangle
  /-- The vector `std::vector<const Triangle *> item_ptrs`. -/
  item_ptrs : List TrianglePtr
  /-- The vector `std::vector<char *> garbage`: addresses in `fillers`. -/
  garbage : List Nat
  /-- The vector `std::vector<Triangle **> item_ptr_of_ptrs`: addresses in `cells`. -/
  item_ptr_of_ptrs : List Nat
  /-- The local `double time`. -/
  time : ℚ
  /-- Heap: the records made by `new Triangle`; the address is the position. -/
  triangles : List Triangle
  /-- Heap: the cells made by `new Triangle*`, with their contents. -/
  cells : List TrianglePtr
  /-- Heap: the buffers made by `new char[n]`. -/
  fillers : List Filler
  /-- The addresses passed to `delete[]` so far, in order. -/
  deleted : List Nat

namespace Machine

variable {σ W : Type}

/-- The state at program start: both generators constructed from `SEED`. -/
def init (E : Engine σ) (SEED : Nat) (w : W) : Machine σ W where
  gen := E.seed SEED
  gen2 := E.seed SEED
  world := w
  cout := ""
  items := []
  item_ptrs := []
  garbage := []
  item_ptr_of_ptrs := []
  time := 0
  triangles := []
  cells := []
  fillers := []
  deleted := []

/-- The function `next_float`. -/
def next_float (E : Engine σ) (m : Machine σ W) : ℚ × Machine σ W :=
  ((E.uniform_real m.gen).1, { m with gen := (E.uniform_real m.gen).2 })

/-- The function `next_int`. -/
def next_int (E : Engine σ) (m : Machine σ W) : Nat × Machine σ W :=
  ((E.uniform_int m.gen2).1, { m with gen2 := (E.uniform_int m.gen2).2 })

/-- The statement `gen.seed(SEED)`. -/
def gen_seed (E : Engine σ) (SEED : Nat) (m : Machine σ W) : Machine σ W :=
  { m with gen := E.seed SEED }

/-- The constructor `Triangle::Triangle()`: six calls of `next_float`, in the
order of the member initialisers. -/
def newTriangle (E : Engine σ) (m : Machine σ W) : Triangle × Machine σ W :=
  let (x0, m) := m.next_float E
  let (y0, m) := m.next_float E
  let (x1, m) := m.next_float E
  let (y1, m) := m.next_float E
  let (x2, m) := m.next_float E
  let (y2, m) := m.next_float E
  (⟨x0, y0, x1, y1, x2, y2⟩, m)

/-- The construction `std::vector<Triangle> items(n)`: `n` records are default
constructed, one after the other, at the end of `items`. -/
def constructItems (E : Engine σ) : Nat → Machine σ W → Machine σ W
  | 0, m => m
  | n + 1, m =>
    let (t, m) := m.newTriangle E
    constructItems E n { m with items := m.items ++ [t] }

/-- The expression `new Triangle`. -/
def new_Triangle (E : Engine σ) (m : Machine σ W) : TrianglePtr × Machine σ W :=
  let (t, m) := m.newTriangle E
  (TrianglePtr.heap m.triangles.length, { m with triangles := m.triangles ++ [t] })

/-- The statements `Triangle ** ptr = new Triangle*; *ptr = p;`. -/
def new_cell (p : TrianglePtr) (m : Machine σ W) : Nat × Machine σ W :=
  (m.cells.length, { m with cells := m.cells ++ [p] })

/-- The expression `new char[size]`. -/
def new_chars (size : Nat) (m : Machine σ W) : Nat × Machine σ W :=
  (m.fillers.length, { m with fillers := m.fillers ++ [⟨size, true⟩] })

/-- The expression `delete[] data`: defined only on a buffer that is live. -/
def delete_chars (data : Nat) (m : Machine σ W) : Option (Machine σ W) :=
  match m.fillers[data]? with
  | some ⟨size, true⟩ =>
    some { m with fillers := m.fillers.set data ⟨size, false⟩, deleted := m.deleted ++ [data] }
  | _ => none

/-- The expression `&items[i]`: defined for an index within the vector. -/
def addr_item (i : Int) (m : Machine σ W) : Option TrianglePtr :=
  if 0 ≤ i ∧ i.toNat < m.items.length then some (TrianglePtr.item i.toNat) else none

/-- Reading the record behind a `const Triangle*`. -/
def deref (m : Machine σ W) : TrianglePtr → Option Triangle
  | .item i => m.items[i]?
  | .heap a => m.triangles[a]?

/-- Reading the cell behind a `Triangle**`. -/
def deref_cell (m : Machine σ W) (c : Nat) : Option TrianglePtr :=
  m.cells[c]?

/-- The number of filler buffers that are allocated and not released. -/
def outstanding (m : Machine σ W) : Nat :=
  (m.fillers.filter (fun f => f.live)).length

/-- The clock, read by the program. -/
def clock (env : Env W) : Clock (Machine σ W) where
  now := fun m => ((env.now m.world).1, { m with world := (env.now m.world).2 })
  period_ms := env.period_ms

/-! ### The five workloads: the value of `sum` at `DoNotOptimize(sum)` -/

/-- Scenario A: `for (const auto it : items) sum += it.area();`. -/
def sumA (m : Machine σ W) : Option ℚ :=
  some (m.items.foldl (fun sum it => sum + it.area) 0)

/-- Scenarios B, C and D: `for (const auto ptr : item_ptrs) sum += ptr->area();`. -/
def sumPtrs (m : Machine σ W) : Option ℚ :=
  m.item_ptrs.foldlM (fun sum ptr => (m.deref ptr).map (fun t => sum + t.area)) 0

/-- Scenario E: `for (const auto ptr : item_ptr_of_ptrs) sum += (*ptr)->area();`. -/
def sumCells (m : Machine σ W) : Option ℚ :=
  m.item_ptr_of_ptrs.foldlM
    (fun sum ptr => ((m.deref_cell ptr).bind m.deref).map (fun t => sum + t.area)) 0

/-- The loop of a layout's workload. -/
def sumOf (m : Machine σ W) : Layout → Option ℚ
  | .A => m.sumA
  | .B => m.sumPtrs
  | .C => m.sumPtrs
  | .D => m.sumPtrs
  | .E => m.sumCells

/-- The lambda passed to `benchmark` for a layout: sum the areas, then
`DoNotOptimize(sum)`. -/
def workload (env : Env W) (l : Layout) (iter : Int) (m : Machine σ W) : Option (Machine σ W) :=
  (m.sumOf l).map (fun sum => { m with world := env.pass l iter sum m.world })

/-- The statements `time = benchmark(5, 2, ...); std::cout << "time: " << time << " ms\n";`. -/
def benchmarkAndPrint (env : Env W) (l : Layout) (m : Machine σ W) : Option (Machine σ W) :=
  (benchmark (clock env) 5 2 (workload env l) m).map (fun r =>
    { r.2 with time := r.1, cout := r.2.cout ++ "time: " ++ env.show_double r.1 ++ " ms\n" })

/-! ### The statements of `main`, layout by layout -/

/-- Lines 111-115: the vector `items`, the size line and the label of A. -/
def buildA (E : Engine σ) (env : Env W) (N : Nat) (m : Machine σ W) : Machine σ W :=
  let m := constructItems E N m
  let m := { m with cout := m.cout ++ "struct size: " ++ toString env.sizeof_Triangle ++ "\n" }
  let m := { m with cout := m.cout ++ "--- Contiguous data\n" }
  { m with world := env.build Layout.A m.world }

/-- Lines 125-131: the label of B, and `item_ptrs` filled by
`for (auto &it : items) item_ptrs.push_back(&it);`. -/
def buildB (env : Env W) (m : Machine σ W) : Machine σ W :=
  let m := { m with cout := m.cout ++ "--- Contiguous pointers to contiguous data\n" }
  let m := (List.range m.items.length).foldl
    (fun m i => { m with item_ptrs := m.item_ptrs ++ [TrianglePtr.item i] }) m
  { m with world := env.build Layout.B m.world }

/-- Lines 141-147: the label of C, the reseeding, and `N` times
`item_ptrs.push_back(new Triangle);`. -/
def buildC (E : Engine σ) (env : Env W) (SEED N : Nat) (m : Machine σ W) :
    Option (Machine σ W) :=
  let m := { m with cout := m.cout ++ "--- Contiguous pointers to scattered data\n" }
  let m := m.gen_seed E SEED
  let m := { m with item_ptrs := [] }
  (forLoopSize N (fun _ (m : Machine σ W) =>
    let (p, m) := m.new_Triangle E
    some { m with item_ptrs := m.item_ptrs ++ [p] }) 0 m).map
    (fun m => { m with world := env.build Layout.C m.world })

/-- Lines 158-167: the label of D, the reseeding, and `N` times a record
followed by a filler whose size is drawn by `next_int`. -/
def buildD (E : Engine σ) (env : Env W) (SEED N : Nat) (m : Machine σ W) :
    Option (Machine σ W) :=
  let m := { m with cout := m.cout ++ "--- Contiguous pointers to very scattered data\n" }
  let m := m.gen_seed E SEED
  let m := { m with item_ptrs := [] }
  let m := { m with garbage := [] }
  (forLoopSize N (fun _ (m : Machine σ W) =>
    let (p, m) := m.new_Triangle E
    let m := { m with item_ptrs := m.item_ptrs ++ [p] }
    let (garbage_size, m) := m.next_int E
    let (data, m) := m.new_chars garbage_size
    some { m with garbage := m.garbage ++ [data] }) 0 m).map
    (fun m => { m with world := env.build Layout.D m.world })

/-- Lines 178-179 and 203-204: `std::for_each` over `garbage` with
`delete[] data`, then `garbage.clear();`. -/
def releaseGarbage (m : Machine σ W) : Option (Machine σ W) :=
  (m.garbage.foldlM (fun (m : Machine σ W) data => m.delete_chars data) m).map
    (fun m => { m with garbage := [] })

/-- Lines 181-192: the label of E, the reseeding, and `N` times a cell holding
`&items[i]` followed by a filler. -/
def buildE (E : Engine σ) (env : Env W) (SEED N : Nat) (m : Machine σ W) :
    Option (Machine σ W) :=
  let m := { m with cout := m.cout ++
    "--- Contiguous pointers to very scattered pointers to contiguous data\n" }
  let m := m.gen_seed E SEED
  let m := { m with item_ptr_of_ptrs := [] }
  (forLoopSize N (fun i (m : Machine σ W) =>
    match m.addr_item i with
    | none => none
    | some p =>
      let (ptr, m) := m.new_cell p
      let m := { m with item_ptr_of_ptrs := m.item_ptr_of_ptrs ++ [ptr] }
      let (garbage_size, m) := m.next_int E
      let (data, m) := m.new_chars garbage_size
      some { m with garbage := m.garbage ++ [data] }) 0 m).map
    (fun m => { m with world := env.build Layout.E m.world })

end Machine

open Machine

/-! ### `main`, cut at the points between which the claims speak -/

section Main

variable {σ W : Type} (E : Engine σ) (env : Env W) (SEED N : Nat) (w : W)

/-- The state in which the workload of A is measured. -/
def readyA : Option (Machine σ W) :=
  some (buildA E env N (init E SEED w))

/-- The state in which the workload of B is measured. -/
def readyB : Option (Machine σ W) :=
  ((readyA E env SEED N w).bind (benchmarkAndPrint env Layout.A)).map (buildB env)

/-- The state in which the workload of C is measured. -/
def readyC : Option (Machine σ W) :=
  ((readyB E env SEED N w).bind (benchmarkAndPrint env Layout.B)).bind (buildC E env SEED N)

/-- The state in which the workload of D is measured. -/
def readyD : Option (Machine σ W) :=
  ((readyC E env SEED N w).bind (benchmarkAndPrint env Layout.C)).bind (buildD E env SEED N)

/-- The state in which scenario E begins: D measured and its fillers released. -/
def doneD : Option (Machine σ W) :=
  ((readyD E env SEED N w).bind (benchmarkAndPrint env Layout.D)).bind releaseGarbage

/-- The state in which the workload of E is measured. -/
def readyE : Option (Machine σ W) :=
  (doneD E env SEED N w).bind (buildE E env SEED N)

/-- The function `main`: the exit status and the final state. -/
def main : Option (Int × Machine σ W) :=
  (((readyE E env SEED N w).bind (benchmarkAndPrint env Layout.E)).bind releaseGarbage).map
    (fun m => (0, m))

end Main

/-! ### Concrete surroundings, for evaluating the definitions -/

/-- A small engine: the state is a counter, the float stream takes the values
`(g * g % 9) / 4 - 1` of `[-1, 1]` and the integer stream runs through `1, ..., 64`. -/
def sampleEngine : Engine Nat where
  seed := fun s => s
  uniform_real := fun g => (((g * g % 9 : Nat) : ℚ) / 4 - 1, g + 1)
  uniform_int := fun g => (g % 64 + 1, g + 1)

/-- Surroundings in which the world is a tick count: a clock reading takes one
tick and a pass over the dataset ten. -/
def sampleEnv : Env Nat where
  now := fun t => ((t : Int), t + 1)
  period_ms := 1
  pass := fun _ _ _ t => t + 10
  build := fun _ t => t + 100
  sizeof_Triangle := 24
  show_double := fun q => toString q.num ++ "/" ++ toString q.den

/-! ### The streams as sequences -/

/-- The record number `k`, counted from `0`, of a float stream that starts in
the state `g`: its coordinates are the draws `6k, ..., 6k + 5`, in the order
`x0, y0, x1, y1, x2, y2`. -/
def recordAt {σ : Type} (E : Engine σ) (g : σ) (k : Nat) : Triangle where
  x0 := nthDraw E.uniform_real g (6 * k)
  y0 := nthDraw E.uniform_real g (6 * k + 1)
  x1 := nthDraw E.uniform_real g (6 * k + 2)
  y1 := nthDraw E.uniform_real g (6 * k + 3)
  x2 := nthDraw E.uniform_real g (6 * k + 4)
  y2 := nthDraw E.uniform_real g (6 * k + 5)

/-- The first `n` records of a float stream that starts in the state `g`. -/
def records {σ : Type} (E : Engine σ) (g : σ) (n : Nat) : List Triangle :=
  (List.range n).map (recordAt E g)

/-- The records that the workload of a layout visits, in the order of its loop;
`none` marks an access through an address that is not valid. -/
def Machine.visited {σ W : Type} (m : Machine σ W) : Layout → List (Option Triangle)
  | .A => m.items.map some
  | .B => m.item_ptrs.map m.deref
  | .C => m.item_ptrs.map m.deref
  | .D => m.item_ptrs.map m.deref
  | .E => m.item_ptr_of_ptrs.map (fun ptr => (m.deref_cell ptr).bind m.deref)

/-! ### The measurement, seen from outside -/

namespace Env

variable {W : Type}

/-- The outside world after the calls `fun(i)`, for `i` in a list, of the
workload of layout `l`, each of which computes the sum `v`. -/
def after (env : Env W) (l : Layout) (v : ℚ) (is : List Int) (w : W) : W :=
  is.foldl (fun w i => env.pass l i v w) w

/-- The reading `t0` of `timer.start()` in `benchmark(5, 2, ...)` entered in the
world `w`: taken after the two warmup calls. -/
def startTime (env : Env W) (l : Layout) (v : ℚ) (w : W) : Int × W :=
  env.now (env.after l v [-1, -1] w)

/-- The reading `t1` of `timer.stop()`: taken after the five measured calls. -/
def stopTime (env : Env W) (l : Layout) (v : ℚ) (w : W) : Int × W :=
  env.now (env.after l v [0, 1, 2, 3, 4] (env.startTime l v w).2)

/-- The mean time per measured call, in milliseconds. -/
def meanTime (env : Env W) (l : Layout) (v : ℚ) (w : W) : ℚ :=
  (((env.stopTime l v w).1 - (env.startTime l v w).1 : Int) : ℚ) * env.period_ms / 5

end Env

/-- The vectors and the heap of a state, field by field. -/
def Machine.heapIs {σ W : Type} (m : Machine σ W) (items : List Triangle)
    (item_ptrs : List TrianglePtr) (garbage item_ptr_of_ptrs : List Nat)
    (triangles : List Triangle) (cells : List TrianglePtr) (fillers : List Filler)
    (deleted : List Nat) : Prop :=
  m.items = items ∧ m.item_ptrs = item_ptrs ∧ m.garbage = garbage ∧
  m.item_ptr_of_ptrs = item_ptr_of_ptrs ∧ m.triangles = triangles ∧ m.cells = cells ∧
  m.fillers = fillers ∧ m.deleted = deleted

/-- The line that reports a mean time. -/
def timeLine {W : Type} (env : Env W) (r : ℚ) : String :=
  "time: " ++ env.show_double r ++ " ms\n"

/-! ### Interleaved draws -/

/-- One call of `next_float` or of `next_int`. -/
inductive Draw where
  | float
  | int
deriving DecidableEq, Repr

/-- A sequence of calls of `next_float` and `next_int`, in any interleaving: the
values returned, in order, and the final state. -/
def runDraws {σ W : Type} (E : Engine σ) : List Draw → Machine σ W → List (ℚ ⊕ Nat) × Machine σ W
  | [], m => ([], m)
  | Draw.float :: ds, m =>
    let (x, m) := m.next_float E
    let (out, m) := runDraws E ds m
    (Sum.inl x :: out, m)
  | Draw.int :: ds, m =>
    let (n, m) := m.next_int E
    let (out, m) := runDraws E ds m
    (Sum.inr n :: out, m)

/-! ## Area -/

theorem foldl_area_shift (ts : List Triangle) (a : ℚ) :
    ts.foldl (fun sum it => sum + it.area) a = a + sumAreas ts := by
  induction ts generalizing a with
  | nil => simp [sumAreas]
  | cons t ts ih =>
    simp only [sumAreas, List.foldl_cons]
    rw [ih, ih (0 + t.area)]
    ring

theorem sumAreas_cons (t : Triangle) (ts : List Triangle) :
    sumAreas (t :: ts) = t.area + sumAreas ts := by
  rw [sumAreas, List.foldl_cons, foldl_area_shift]
  ring

theorem area_nonneg (t : Triangle) : 0 ≤ t.area := by
  unfold Triangle.area
  have := abs_nonneg (t.x0 * (t.y1 - t.y2) + t.x1 * (t.y2 - t.y0) + t.x2 * (t.y0 - t.y1))
  norm_num

theorem mul_le_abs_of_unit {x u : ℚ} (h1 : -1 ≤ x) (h2 : x ≤ 1) : x * u ≤ |u| ∧ -|u| ≤ x * u := by
  have hx : |x| ≤ 1 := abs_le.mpr ⟨h1, h2⟩
  have h : |x * u| ≤ |u| := by
    rw [abs_mul]
    calc |x| * |u| ≤ 1 * |u| := mul_le_mul_of_nonneg_right hx (abs_nonneg u)
      _ = |u| := one_mul _
  exact ⟨(le_abs_self _).trans h, by linarith [neg_abs_le (x * u)]⟩

theorem area_le_two (t : Triangle) (h : t.InUnitBox) : t.area ≤ 2 := by
  obtain ⟨⟨a0, b0⟩, ⟨c0, d0⟩, ⟨a1, b1⟩, ⟨c1, d1⟩, ⟨a2, b2⟩, ⟨c2, d2⟩⟩ := h
  have h0 := mul_le_abs_of_unit (u := t.y1 - t.y2) a0 b0
  have h1 := mul_le_abs_of_unit (u := t.y2 - t.y0) a1 b1
  have h2 := mul_le_abs_of_unit (u := t.y0 - t.y1) a2 b2
  have hs : |t.y1 - t.y2| + |t.y2 - t.y0| + |t.y0 - t.y1| ≤ 4 := by
    rcases abs_cases (t.y1 - t.y2) with ⟨e0, _⟩ | ⟨e0, _⟩ <;>
    rcases abs_cases (t.y2 - t.y0) with ⟨e1, _⟩ | ⟨e1, _⟩ <;>
    rcases abs_cases (t.y0 - t.y1) with ⟨e2, _⟩ | ⟨e2, _⟩ <;>
    rw [e0, e1, e2] <;> linarith
  have hd : |t.x0 * (t.y1 - t.y2) + t.x1 * (t.y2 - t.y0) + t.x2 * (t.y0 - t.y1)| ≤ 4 :=
    abs_le.mpr ⟨by linarith [h0.2, h1.2, h2.2], by linarith [h0.1, h1.1, h2.1]⟩
  unfold Triangle.area
  norm_num
  linarith

/-- C6: `area()` does not depend on the order in which the three vertices are
given (all five other orderings, which include both orientations, give the area
of the original order), and the two known triangles have areas `0.5` and `2.0`
in every ordering. -/
theorem area_vertex_order_invariant :
    (∀ a b c : ℚ × ℚ,
      (Triangle.ofVertices b a c).area = (Triangle.ofVertices a b c).area ∧
      (Triangle.ofVertices a c b).area = (Triangle.ofVertices a b c).area ∧
      (Triangle.ofVertices c b a).area = (Triangle.ofVertices a b c).area ∧
      (Triangle.ofVertices b c a).area = (Triangle.ofVertices a b c).area ∧
      (Triangle.ofVertices c a b).area = (Triangle.ofVertices a b c).area) ∧
    (Triangle.ofVertices (0, 0) (1, 0) (0, 1)).area = 0.5 ∧
    (Triangle.ofVertices (-1, -1) (1, -1) (-1, 1)).area = 2.0 := by
  refine ⟨?_, ?_, ?_⟩
  · intro a b c
    simp only [Triangle.area, Triangle.ofVertices]
    refine ⟨?_, ?_, ?_, ?_, ?_⟩
    · rw [← abs_neg]; congr 2; ring
    · rw [← abs_neg]; congr 2; ring
    · rw [← abs_neg]; congr 2; ring
    · congr 2; ring
    · congr 2; ring
  · norm_num [Triangle.area, Triangle.ofVertices]
  · norm_num [Triangle.area, Triangle.ofVertices]

/-- C8: `area()` is a total function of the six fields, and on every degenerate
triangle, whose vertices are collinear or of which two (or all three) vertices
coincide, its value is exactly `0`. -/
theorem area_degenerate_eq_zero (t : Triangle)
    (h : t.Collinear ∨ (t.x0 = t.x1 ∧ t.y0 = t.y1) ∨ (t.x1 = t.x2 ∧ t.y1 = t.y2) ∨
      (t.x0 = t.x2 ∧ t.y0 = t.y2)) :
    t.area = 0 := by
  unfold Triangle.area
  have hz : t.x0 * (t.y1 - t.y2) + t.x1 * (t.y2 - t.y0) + t.x2 * (t.y0 - t.y1) = 0 := by
    rcases h with ⟨px, py, dx, dy, s0, s1, s2, e0, f0, e1, f1, e2, f2⟩ | ⟨e, f⟩ | ⟨e, f⟩ | ⟨e, f⟩
    · rw [e0, f0, e1, f1, e2, f2]
      ring
    · rw [e, f]
      ring
    · rw [e, f]
      ring
    · rw [e, f]
      ring
  rw [hz]
  norm_num

theorem area_degenerate_eq_zero_witness :
    (Triangle.ofVertices (0, 0) (1, 2) (2, 4)).Collinear ∧
    (Triangle.ofVertices (0, 0) (1, 2) (2, 4)).area = 0 ∧
    (Triangle.ofVertices (3, 5) (3, 5) (7, 1)).area = 0 :=
  ⟨⟨0, 0, 1, 2, 0, 1, 2, by norm_num [Triangle.ofVertices]⟩,
   area_degenerate_eq_zero _ (Or.inl ⟨0, 0, 1, 2, 0, 1, 2, by norm_num [Triangle.ofVertices]⟩),
   area_degenerate_eq_zero _ (Or.inr (Or.inl ⟨rfl, rfl⟩))⟩

theorem sumAreas_bounds (ts : List Triangle) (h : ∀ t ∈ ts, t.InUnitBox) :
    0 ≤ sumAreas ts ∧ sumAreas ts ≤ 2 * ts.length := by
  induction ts with
  | nil => simp [sumAreas]
  | cons t ts ih =>
    have ht := area_le_two t (h t (List.mem_cons_self _ _))
    have hn := area_nonneg t
    obtain ⟨l, u⟩ := ih (fun x hx => h x (List.mem_cons_of_mem _ hx))
    rw [sumAreas_cons]
    simp only [List.length_cons]
    push_cast
    constructor <;> linarith

/-- C10: for coordinates in `[-1, 1]` the area lies in `[0, 2]`, the bound `2`
is attained by the vertices `(-1,-1), (1,-1), (-1,1)`, and the sum accumulated
by one pass over `N` such records lies in `[0, 2N]`. -/
theorem area_bounds_unit_box (ts : List Triangle) (h : ∀ t ∈ ts, t.InUnitBox) :
    (∀ t ∈ ts, 0 ≤ t.area ∧ t.area ≤ 2) ∧
    (0 ≤ sumAreas ts ∧ sumAreas ts ≤ 2 * ts.length) ∧
    ((Triangle.ofVertices (-1, -1) (1, -1) (-1, 1)).InUnitBox ∧
      (Triangle.ofVertices (-1, -1) (1, -1) (-1, 1)).area = 2) :=
  ⟨fun t ht => ⟨area_nonneg t, area_le_two t (h t ht)⟩, sumAreas_bounds ts h,
   by norm_num [Triangle.InUnitBox, Triangle.ofVertices],
   by norm_num [Triangle.area, Triangle.ofVertices]⟩

theorem area_bounds_unit_box_witness :
    (∀ t ∈ [Triangle.ofVertices (0, 0) (1, 0) (0, 1)], t.InUnitBox) ∧
    (0 ≤ sumAreas [Triangle.ofVertices (0, 0) (1, 0) (0, 1)] ∧
      sumAreas [Triangle.ofVertices (0, 0) (1, 0) (0, 1)] ≤
        2 * [Triangle.ofVertices (0, 0) (1, 0) (0, 1)].length) :=
  ⟨by norm_num [Triangle.InUnitBox, Triangle.ofVertices],
   (area_bounds_unit_box [Triangle.ofVertices (0, 0) (1, 0) (0, 1)]
      (by norm_num [Triangle.InUnitBox, Triangle.ofVertices])).2.1⟩


/-! ## benchmark -/

theorem forLoop_eq_invokeAll {S : Type} (n : Int) (body : Int → S → Option S) :
    ∀ (k : Nat) (i : Int) (s : S), (n - i).toNat = k →
      forLoop n body i s = invokeAll body ((List.range k).map (fun (j : Nat) => i + (j : Int))) s := by
  intro k
  induction k with
  | zero =>
    intro i s h
    rw [forLoop, if_neg (by omega)]
    simp [invokeAll]
  | succ k ih =>
    intro i s h
    rw [forLoop, if_pos (by omega)]
    rw [List.range_succ_eq_map]
    simp only [List.map_cons, List.map_map, invokeAll, Nat.cast_zero, add_zero]
    cases hb : body i s with
    | none => rfl
    | some s' =>
      simp only
      rw [ih (i + 1) s' (by omega)]
      congr 2
      funext j
      simp only [Function.comp, Nat.cast_succ]
      ring

theorem forLoop_zero {S : Type} (n : Int) (body : Int → S → Option S) (s : S) :
    forLoop n body 0 s = invokeAll body (upTo n.toNat) s := by
  rw [forLoop_eq_invokeAll n body n.toNat 0 s (by simp)]
  congr 1
  apply List.map_congr_left
  intro j _
  simp

theorem invokeAll_const {S : Type} (fn : Int → S → Option S) (c : Int) (l : List Int) (s : S) :
    invokeAll (fun _ => fn c) l s = invokeAll fn (List.replicate l.length c) s := by
  induction l generalizing s with
  | nil => rfl
  | cons i is ih =>
    simp only [invokeAll, List.length_cons, List.replicate_succ]
    cases fn c s with
    | none => rfl
    | some s' => exact ih s'

theorem upTo_length (k : Nat) : (upTo k).length = k := by
  simp [upTo]

/-- The run of `benchmark` as two batches of calls around two clock readings. -/
theorem benchmark_eq {S : Type} (clk : Clock S) (m w : Int) (fn : Int → S → Option S) (s : S) :
    benchmark clk m w fn s =
      (invokeAll fn (List.replicate w.toNat (-1)) s).bind (fun s1 =>
        (invokeAll fn (upTo m.toNat) (clk.now s1).2).bind (fun s3 =>
          some ((((clk.now s3).1 - (clk.now s1).1 : Int) : ℚ) * clk.period_ms / m,
            (clk.now s3).2))) := by
  unfold benchmark
  rw [forLoop_zero, invokeAll_const, upTo_length]
  cases invokeAll fn (List.replicate w.toNat (-1)) s with
  | none => rfl
  | some s1 =>
    simp only [Option.some_bind, Timer.start]
    rw [forLoop_zero]
    cases invokeAll fn (upTo m.toNat) (clk.now s1).2 with
    | none => rfl
    | some s3 => simp [Timer.stop, Timer.elapsed_ms]

theorem invokeAll_isSome {S : Type} (fn : Int → S → Option S)
    (hfn : ∀ i s, (fn i s).isSome = true) (l : List Int) (s : S) :
    ∃ s', invokeAll fn l s = some s' := by
  induction l generalizing s with
  | nil => exact ⟨s, rfl⟩
  | cons i is ih =>
    obtain ⟨s1, h1⟩ := Option.isSome_iff_exists.mp (hfn i s)
    obtain ⟨s2, h2⟩ := ih s1
    exact ⟨s2, by simp [invokeAll, h1, h2]⟩

theorem invokeAll_traced {S : Type} (fn : Int → S → Option S) (l : List Int) (s : S)
    (tr : List Event) :
    invokeAll (tracedWorkload fn) l (s, tr) =
      (invokeAll fn l s).map (fun s' => (s', tr ++ l.map Event.call)) := by
  induction l generalizing s tr with
  | nil => simp [invokeAll]
  | cons i is ih =>
    simp only [invokeAll, tracedWorkload]
    cases fn i s with
    | none => rfl
    | some s1 =>
      simp only [Option.map_some']
      have := ih s1 (tr ++ [Event.call i])
      simp only [tracedWorkload] at this
      rw [this]
      simp

theorem benchmark_isSome {S : Type} (clk : Clock S) (m w : Int) (fn : Int → S → Option S)
    (s : S) (hfn : ∀ i s, (fn i s).isSome = true) :
    (benchmark clk m w fn s).isSome = true := by
  rw [benchmark_eq]
  obtain ⟨s1, h1⟩ := invokeAll_isSome fn hfn (List.replicate w.toNat (-1)) s
  obtain ⟨s3, h3⟩ := invokeAll_isSome fn hfn (upTo m.toNat) (clk.now s1).2
  simp [h1, h3]

theorem filter_isCall_map_call (l : List Int) :
    (l.map Event.call).filter Event.isCall = l.map Event.call := by
  induction l with
  | nil => rfl
  | cons i is ih => simp [List.filter_cons, Event.isCall, ih]

/-- C1: for `m ≥ 0`, `w ≥ 0` and a workload that returns from every call, a run
of `benchmark(m, w, workload)` consists of `w` calls `workload(-1)`, the clock
reading of `timer.start()`, the `m` calls `workload(0)`, ..., `workload(m-1)`,
and the clock reading of `timer.stop()`, in this order and nothing else: `m + w`
calls in total, the first `w` before the timer is started and the last `m`
between start and stop. Observing the run changes neither its result nor its
final state. -/
theorem benchmark_call_trace {S : Type} (clk : Clock S) (m w : Int)
    (fn : Int → S → Option S) (s : S) (hm : 0 ≤ m) (hw : 0 ≤ w)
    (hfn : ∀ i s, (fn i s).isSome = true) :
    ∃ (r : ℚ) (s' : S) (tr : List Event),
      benchmark clk m w fn s = some (r, s') ∧
      benchmark (tracedClock clk) m w (tracedWorkload fn) (s, []) = some (r, (s', tr)) ∧
      tr = List.replicate w.toNat (Event.call (-1)) ++ [Event.now] ++
            (upTo m.toNat).map Event.call ++ [Event.now] ∧
      ((tr.filter Event.isCall).length : Int) = m + w ∧
      (w.toNat : Int) = w ∧ (m.toNat : Int) = m := by
  obtain ⟨s1, h1⟩ := invokeAll_isSome fn hfn (List.replicate w.toNat (-1)) s
  obtain ⟨s3, h3⟩ := invokeAll_isSome fn hfn (upTo m.toNat) (clk.now s1).2
  refine ⟨(((clk.now s3).1 - (clk.now s1).1 : Int) : ℚ) * clk.period_ms / m, (clk.now s3).2,
    _, ?_, ?_, rfl, ?_, Int.toNat_of_nonneg hw, Int.toNat_of_nonneg hm⟩
  · rw [benchmark_eq, h1, Option.some_bind, h3, Option.some_bind]
  · rw [benchmark_eq, invokeAll_traced, h1]
    simp only [Option.map_some', Option.some_bind, tracedClock]
    rw [invokeAll_traced, h3]
    simp [List.map_replicate]
  · have e1 : (List.replicate w.toNat (Event.call (-1))).filter Event.isCall =
        List.replicate w.toNat (Event.call (-1)) := by
      rw [← List.map_replicate, filter_isCall_map_call]
    simp only [List.filter_append, e1, filter_isCall_map_call]
    simp [List.filter_cons, Event.isCall, upTo_length]
    omega

theorem benchmark_call_trace_witness :
    (0 : Int) ≤ 3 ∧ (0 : Int) ≤ 2 ∧ (∀ i s, (tenTicks i s).isSome = true) ∧
    ∃ (r : ℚ) (s' : Nat) (tr : List Event),
      benchmark tickClock 3 2 tenTicks 0
        = some (r, s') ∧
      benchmark (tracedClock tickClock) 3 2 (tracedWorkload tenTicks) (0, []) = some (r, (s', tr)) ∧
      tr = List.replicate (2 : Int).toNat (Event.call (-1)) ++ [Event.now] ++
            (upTo (3 : Int).toNat).map Event.call ++ [Event.now] ∧
      ((tr.filter Event.isCall).length : Int) = 3 + 2 ∧
      ((2 : Int).toNat : Int) = 2 ∧ ((3 : Int).toNat : Int) = 3 :=
  ⟨by decide, by decide, fun _ _ => rfl,
    benchmark_call_trace tickClock 3 2 tenTicks 0 (by decide) (by decide) (fun _ _ => rfl)⟩

/-- C2: for `m ≥ 1`, `benchmark(m, w, workload)` returns
`(t1 - t0) * period_ms / m`, where `t0` is the clock reading taken after the `w`
warmup calls `workload(-1)` and `t1` the reading taken after the `m` measured
calls `workload(0)`, ..., `workload(m-1)` that follow it; it returns whenever
every call of the workload does. -/
theorem benchmark_mean_time {S : Type} (clk : Clock S) (m w : Int)
    (fn : Int → S → Option S) (s : S) (hm : 1 ≤ m) :
    benchmark clk m w fn s =
      (invokeAll fn (List.replicate w.toNat (-1)) s).bind (fun s1 =>
        (invokeAll fn (upTo m.toNat) (clk.now s1).2).bind (fun s3 =>
          some ((((clk.now s3).1 - (clk.now s1).1 : Int) : ℚ) * clk.period_ms / m,
            (clk.now s3).2))) ∧
    (m.toNat : Int) = m ∧
    ((∀ i s, (fn i s).isSome = true) → (benchmark clk m w fn s).isSome = true) :=
  ⟨benchmark_eq clk m w fn s, Int.toNat_of_nonneg (by omega), benchmark_isSome clk m w fn s⟩

theorem benchmark_mean_time_witness :
    (1 : Int) ≤ 3 ∧
    benchmark tickClock 3 2 tenTicks 0 =
      some (31 / 3, 52) := by
  refine ⟨by decide, ?_⟩
  rw [(benchmark_mean_time tickClock 3 2 tenTicks 0 (by decide)).1]
  norm_num [invokeAll, upTo, List.range, List.range.loop, List.replicate, tickClock, tenTicks]

/-! ## Streams and records -/

theorem invokeAll_append {S : Type} (fn : Int → S → Option S) (l1 l2 : List Int) (s : S) :
    invokeAll fn (l1 ++ l2) s = (invokeAll fn l1 s).bind (invokeAll fn l2) := by
  induction l1 generalizing s with
  | nil => rfl
  | cons i is ih =>
    simp only [List.cons_append, invokeAll]
    cases fn i s with
    | none => rfl
    | some s' => exact ih s'

theorem upTo_succ (n : Nat) : upTo (n + 1) = upTo n ++ [(n : Int)] := by
  simp [upTo, List.range_succ]

theorem invokeAll_upTo_succ {S : Type} (fn : Int → S → Option S) (n : Nat) (s : S) :
    invokeAll fn (upTo (n + 1)) s = (invokeAll fn (upTo n) s).bind (fn n) := by
  rw [upTo_succ, invokeAll_append]
  congr 1
  funext s'
  simp only [invokeAll]
  cases fn n s' <;> rfl

/-- A counted loop whose every round succeeds, as a chain of states. -/
theorem forLoop_chain {S : Type} (N : Nat) (body : Int → S → Option S) (st : Nat → S)
    (h : ∀ n, n < N → body n (st n) = some (st (n + 1))) :
    forLoop N body 0 (st 0) = some (st N) := by
  rw [forLoop_zero, Int.toNat_ofNat]
  have : ∀ n, n ≤ N → invokeAll body (upTo n) (st 0) = some (st n) := by
    intro n
    induction n with
    | zero => intro _; rfl
    | succ n ih =>
      intro hn
      rw [invokeAll_upTo_succ, ih (by omega), Option.some_bind, h n (by omega)]
  exact this N le_rfl

/-- Within the range of `int` the loop over a `size_t` bound makes its rounds
like any counted loop. -/
theorem forLoopSize_of_le {S : Type} (N : Nat) (hN : (N : Int) ≤ INT_MAX)
    (body : Int → S → Option S) :
    ∀ (k : Nat) (i : Int) (s : S), ((N : Int) - i).toNat = k →
      forLoopSize N body i s = forLoop N body i s := by
  intro k
  induction k with
  | zero =>
    intro i s h
    rw [forLoopSize, forLoop, if_neg (by omega), if_neg (by omega)]
  | succ k ih =>
    intro i s h
    rw [forLoopSize, forLoop, if_pos (by omega), if_pos (by omega)]
    cases body i s with
    | none => rfl
    | some s' =>
      simp only
      rw [if_pos (by omega), ih (i + 1) s' (by omega)]

theorem forLoopSize_eq_forLoop {S : Type} (N : Nat) (hN : (N : Int) ≤ INT_MAX)
    (body : Int → S → Option S) (s : S) :
    forLoopSize N body 0 s = forLoop N body 0 s :=
  forLoopSize_of_le N hN body _ 0 s rfl

theorem records_succ {σ : Type} (E : Engine σ) (g : σ) (n : Nat) :
    records E g (n + 1) = records E g n ++ [recordAt E g n] := by
  simp [records, List.range_succ]

theorem records_length {σ : Type} (E : Engine σ) (g : σ) (n : Nat) :
    (records E g n).length = n := by
  simp [records]

/-- The constructor draws the next six values of the float stream. -/
theorem newTriangle_eq {σ W : Type} (E : Engine σ) (m : Machine σ W) (g : σ) (k : Nat)
    (hg : m.gen = (fun g => (E.uniform_real g).2)^[6 * k] g) :
    m.newTriangle E =
      (recordAt E g k, { m with gen := (fun g => (E.uniform_real g).2)^[6 * (k + 1)] g }) := by
  have e : ∀ j, (fun g => (E.uniform_real g).2)^[6 * k + j] g
      = (fun g => (E.uniform_real g).2)^[j] ((fun g => (E.uniform_real g).2)^[6 * k] g) := by
    intro j
    rw [Nat.add_comm, Function.iterate_add_apply]
  simp only [Machine.newTriangle, Machine.next_float, recordAt, nthDraw, Nat.mul_add, Nat.mul_one]
  rw [hg, e 1, e 2, e 3, e 4, e 5, e 6]
  rfl

/-! ## The construction loops -/

theorem constructItems_from {σ W : Type} (E : Engine σ) (g : σ) :
    ∀ (n k : Nat) (m : Machine σ W), m.gen = (fun g => (E.uniform_real g).2)^[6 * k] g →
      constructItems E n m =
        { m with
          gen := (fun g => (E.uniform_real g).2)^[6 * (k + n)] g
          items := m.items ++ (List.range' k n).map (recordAt E g) } := by
  intro n
  induction n with
  | zero =>
    intro k m hg
    simp [constructItems, ← hg]
  | succ n ih =>
    intro k m hg
    rw [constructItems, newTriangle_eq E m g k hg]
    simp only
    rw [ih (k + 1) _ rfl]
    simp [List.range'_succ, Nat.add_assoc, Nat.add_comm 1 n]

theorem constructItems_eq {σ W : Type} (E : Engine σ) (N : Nat) (m : Machine σ W) :
    constructItems E N m =
      { m with
        gen := (fun g => (E.uniform_real g).2)^[6 * N] m.gen
        items := m.items ++ records E m.gen N } := by
  rw [constructItems_from E m.gen N 0 m rfl]
  simp [records, List.range_eq_range']

theorem loopC_eq {σ W : Type} (E : Engine σ) (N : Nat) (m : Machine σ W) :
    forLoop N (fun _ (m : Machine σ W) =>
        let (p, m) := m.new_Triangle E
        some { m with item_ptrs := m.item_ptrs ++ [p] }) 0 m =
      some { m with
        gen := (fun g => (E.uniform_real g).2)^[6 * N] m.gen
        triangles := m.triangles ++ records E m.gen N
        item_ptrs := m.item_ptrs ++
          (List.range N).map (fun k => TrianglePtr.heap (m.triangles.length + k)) } := by
  have h := forLoop_chain N (fun _ (m : Machine σ W) =>
        let (p, m) := m.new_Triangle E
        some { m with item_ptrs := m.item_ptrs ++ [p] })
    (fun n => { m with
        gen := (fun g => (E.uniform_real g).2)^[6 * n] m.gen
        triangles := m.triangles ++ records E m.gen n
        item_ptrs := m.item_ptrs ++
          (List.range n).map (fun k => TrianglePtr.heap (m.triangles.length + k)) })
    (by
      intro n _
      simp only [Machine.new_Triangle]
      rw [newTriangle_eq E _ m.gen n rfl]
      simp [records_succ, List.range_succ, records_length])
  simpa [records] using h

theorem loopD_eq {σ W : Type} (E : Engine σ) (N : Nat) (m : Machine σ W) :
    forLoop N (fun _ (m : Machine σ W) =>
        let (p, m) := m.new_Triangle E
        let m := { m with item_ptrs := m.item_ptrs ++ [p] }
        let (garbage_size, m) := m.next_int E
        let (data, m) := m.new_chars garbage_size
        some { m with garbage := m.garbage ++ [data] }) 0 m =
      some { m with
        gen := (fun g => (E.uniform_real g).2)^[6 * N] m.gen
        gen2 := (fun g => (E.uniform_int g).2)^[N] m.gen2
        triangles := m.triangles ++ records E m.gen N
        item_ptrs := m.item_ptrs ++
          (List.range N).map (fun k => TrianglePtr.heap (m.triangles.length + k))
        fillers := m.fillers ++
          (List.range N).map (fun k => ⟨nthDraw E.uniform_int m.gen2 k, true⟩)
        garbage := m.garbage ++ (List.range N).map (fun k => m.fillers.length + k) } := by
  have h := forLoop_chain N (fun _ (m : Machine σ W) =>
        let (p, m) := m.new_Triangle E
        let m := { m with item_ptrs := m.item_ptrs ++ [p] }
        let (garbage_size, m) := m.next_int E
        let (data, m) := m.new_chars garbage_size
        some { m with garbage := m.garbage ++ [data] })
    (fun n => { m with
        gen := (fun g => (E.uniform_real g).2)^[6 * n] m.gen
        gen2 := (fun g => (E.uniform_int g).2)^[n] m.gen2
        triangles := m.triangles ++ records E m.gen n
        item_ptrs := m.item_ptrs ++
          (List.range n).map (fun k => TrianglePtr.heap (m.triangles.length + k))
        fillers := m.fillers ++
          (List.range n).map (fun k => ⟨nthDraw E.uniform_int m.gen2 k, true⟩)
        garbage := m.garbage ++ (List.range n).map (fun k => m.fillers.length + k) })
    (by
      intro n _
      simp only [Machine.new_Triangle]
      rw [newTriangle_eq E _ m.gen n rfl]
      simp [records_succ, List.range_succ, records_length, Machine.next_int, Machine.new_chars,
        nthDraw, Function.iterate_succ_apply'])
  simpa [records] using h

theorem loopE_eq {σ W : Type} (E : Engine σ) (N : Nat) (m : Machine σ W)
    (hN : N ≤ m.items.length) :
    forLoop N (fun i (m : Machine σ W) =>
        match m.addr_item i with
        | none => none
        | some p =>
          let (ptr, m) := m.new_cell p
          let m := { m with item_ptr_of_ptrs := m.item_ptr_of_ptrs ++ [ptr] }
          let (garbage_size, m) := m.next_int E
          let (data, m) := m.new_chars garbage_size
          some { m with garbage := m.garbage ++ [data] }) 0 m =
      some { m with
        gen2 := (fun g => (E.uniform_int g).2)^[N] m.gen2
        cells := m.cells ++ (List.range N).map TrianglePtr.item
        item_ptr_of_ptrs := m.item_ptr_of_ptrs ++ (List.range N).map (fun k => m.cells.length + k)
        fillers := m.fillers ++
          (List.range N).map (fun k => ⟨nthDraw E.uniform_int m.gen2 k, true⟩)
        garbage := m.garbage ++ (List.range N).map (fun k => m.fillers.length + k) } := by
  have h := forLoop_chain N (fun i (m : Machine σ W) =>
        match m.addr_item i with
        | none => none
        | some p =>
          let (ptr, m) := m.new_cell p
          let m := { m with item_ptr_of_ptrs := m.item_ptr_of_ptrs ++ [ptr] }
          let (garbage_size, m) := m.next_int E
          let (data, m) := m.new_chars garbage_size
          some { m with garbage := m.garbage ++ [data] })
    (fun n => { m with
        gen2 := (fun g => (E.uniform_int g).2)^[n] m.gen2
        cells := m.cells ++ (List.range n).map TrianglePtr.item
        item_ptr_of_ptrs := m.item_ptr_of_ptrs ++ (List.range n).map (fun k => m.cells.length + k)
        fillers := m.fillers ++
          (List.range n).map (fun k => ⟨nthDraw E.uniform_int m.gen2 k, true⟩)
        garbage := m.garbage ++ (List.range n).map (fun k => m.fillers.length + k) })
    (by
      intro n hn
      have hlt : n < m.items.length := by omega
      simp [Machine.addr_item, hlt, Machine.new_cell, List.range_succ, Machine.next_int,
        Machine.new_chars, nthDraw, Function.iterate_succ_apply'])
  simpa using h

/-! ## Measuring a layout -/

theorem buildB_fold {σ W : Type} (n : Nat) (m : Machine σ W) :
    (List.range n).foldl
        (fun (m : Machine σ W) i => { m with item_ptrs := m.item_ptrs ++ [TrianglePtr.item i] }) m =
      { m with item_ptrs := m.item_ptrs ++ (List.range n).map TrianglePtr.item } := by
  induction n with
  | zero => simp
  | succ n ih => simp [List.range_succ, List.foldl_append, ih]

theorem sumOf_world {σ W : Type} (m : Machine σ W) (w : W) (l : Layout) :
    ({ m with world := w } : Machine σ W).sumOf l = m.sumOf l := by
  cases l <;> rfl

theorem invokeAll_workload {σ W : Type} (env : Env W) (l : Layout) (m : Machine σ W) (v : ℚ)
    (hv : m.sumOf l = some v) (is : List Int) :
    ∀ w0 : W, invokeAll (workload env l) is { m with world := w0 } =
      some { m with world := env.after l v is w0 } := by
  induction is with
  | nil => intro w0; rfl
  | cons i is ih =>
    intro w0
    simp only [invokeAll, workload, sumOf_world, hv, Option.map_some']
    exact ih _

/-- The call `benchmark(5, 2, ...)` of `main` on a layout whose loop computes `v`:
it returns the mean time and changes nothing but the outside world. -/
theorem benchmark_workload {σ W : Type} (env : Env W) (l : Layout) (m : Machine σ W) (v : ℚ)
    (hv : m.sumOf l = some v) :
    benchmark (clock env) 5 2 (workload env l) m =
      some (env.meanTime l v m.world, { m with world := (env.stopTime l v m.world).2 }) := by
  rw [benchmark_eq]
  have h1 := invokeAll_workload env l m v hv (List.replicate (2 : Int).toNat (-1)) m.world
  rw [show ({ m with world := m.world } : Machine σ W) = m from rfl] at h1
  rw [h1, Option.some_bind]
  have h2 := invokeAll_workload env l m v hv (upTo (5 : Int).toNat)
    (env.now (env.after l v (List.replicate (2 : Int).toNat (-1)) m.world)).2
  simp only [clock]
  rw [h2, Option.some_bind]
  rfl

theorem benchmarkAndPrint_eq {σ W : Type} (env : Env W) (l : Layout) (m : Machine σ W) (v : ℚ)
    (hv : m.sumOf l = some v) :
    benchmarkAndPrint env l m =
      some { m with
        world := (env.stopTime l v m.world).2
        time := env.meanTime l v m.world
        cout := m.cout ++ "time: " ++ env.show_double (env.meanTime l v m.world) ++ " ms\n" } := by
  rw [benchmarkAndPrint, benchmark_workload env l m v hv]
  rfl

/-! ## Releasing the fillers -/

theorem getElem?_append_cons {α : Type} (F : List α) (a : α) (R : List α) :
    (F ++ a :: R)[F.length]? = some a := by
  induction F with
  | nil => simp
  | cons x F ih => simpa using ih

theorem set_append_cons {α : Type} (F : List α) (a b : α) (R : List α) :
    (F ++ a :: R).set F.length b = F ++ b :: R := by
  induction F with
  | nil => simp
  | cons x F ih => simp

theorem release_fold {σ W : Type} :
    ∀ (L : List Nat) (F : List Filler) (m : Machine σ W),
      m.fillers = F ++ L.map (fun s => ⟨s, true⟩) →
      ((List.range L.length).map (fun k => F.length + k)).foldlM
          (fun (m : Machine σ W) data => m.delete_chars data) m =
        some { m with
          fillers := F ++ L.map (fun s => ⟨s, false⟩)
          deleted := m.deleted ++ (List.range L.length).map (fun k => F.length + k) } := by
  intro L
  induction L with
  | nil =>
    intro F m h
    cases m
    simp only [List.map_nil, List.append_nil] at h
    simp [h]
  | cons s L ih =>
    intro F m h
    rw [List.length_cons, List.range_succ_eq_map]
    simp only [List.map_cons, List.map_map, List.foldlM_cons, Nat.add_zero]
    have hd : m.delete_chars F.length =
        some { m with
          fillers := (F ++ [⟨s, false⟩]) ++ L.map (fun s => ⟨s, true⟩)
          deleted := m.deleted ++ [F.length] } := by
      have hget : m.fillers[F.length]? = some ⟨s, true⟩ := by
        rw [h, List.map_cons, getElem?_append_cons]
      unfold Machine.delete_chars
      rw [hget]
      simp only [h, List.map_cons, set_append_cons, List.append_assoc, List.singleton_append]
    rw [hd]
    simp only [Option.bind_eq_bind, Option.some_bind]
    have := ih (F ++ [⟨s, false⟩]) { m with
          fillers := (F ++ [⟨s, false⟩]) ++ L.map (fun s => ⟨s, true⟩)
          deleted := m.deleted ++ [F.length] } rfl
    have e : (fun k => (F ++ [(⟨s, false⟩ : Filler)]).length + k) =
        (fun k => F.length + k) ∘ Nat.succ := by
      funext k
      simp [Nat.add_assoc, Nat.add_comm 1 k]
    rw [e] at this
    rw [this]
    simp

theorem releaseGarbage_eq {σ W : Type} (L : List Nat) (F : List Filler) (m : Machine σ W)
    (hf : m.fillers = F ++ L.map (fun s => ⟨s, true⟩))
    (hg : m.garbage = (List.range L.length).map (fun k => F.length + k)) :
    releaseGarbage m =
      some { m with
        fillers := F ++ L.map (fun s => ⟨s, false⟩)
        deleted := m.deleted ++ m.garbage
        garbage := [] } := by
  rw [releaseGarbage, hg, release_fold L F m hf]
  rfl

/-! ## What the workloads visit -/

theorem map_getElem?_range_append {α : Type} (F L : List α) :
    (List.range L.length).map (fun k => (F ++ L)[F.length + k]?) = L.map some := by
  apply List.ext_getElem?
  intro i
  by_cases hi : i < L.length
  · simp [List.getElem?_map, List.getElem?_range, hi, List.getElem?_append_right]
  · have h1 : L.length ≤ i := by omega
    simp [List.getElem?_map, List.getElem?_eq_none, h1]

theorem map_getElem?_range {α : Type} (L : List α) :
    (List.range L.length).map (fun k => L[k]?) = L.map some := by
  simpa using map_getElem?_range_append [] L

theorem foldlM_deref {α : Type} (f : α → Option Triangle) :
    ∀ (ps : List α) (ts : List Triangle) (a : ℚ), ps.map f = ts.map some →
      ps.foldlM (fun sum p => (f p).map (fun t => sum + t.area)) a =
        some (ts.foldl (fun sum t => sum + t.area) a) := by
  intro ps
  induction ps with
  | nil =>
    intro ts a h
    cases ts with
    | nil => rfl
    | cons t ts => simp at h
  | cons p ps ih =>
    intro ts a h
    cases ts with
    | nil => simp at h
    | cons t ts =>
      simp only [List.map_cons, List.cons.injEq] at h
      simp only [List.foldlM_cons, h.1, Option.map_some', List.foldl_cons]
      exact ih ts _ h.2

/-- A workload whose loop visits the records `ts`, all through valid addresses,
computes the sum of their areas. -/
theorem sumOf_of_visited {σ W : Type} (m : Machine σ W) (l : Layout) (ts : List Triangle)
    (h : m.visited l = ts.map some) : m.sumOf l = some (sumAreas ts) := by
  cases l with
  | A =>
    have : m.items = ts := List.map_injective_iff.mpr (Option.some_injective _) h
    simp [Machine.sumOf, Machine.sumA, sumAreas, this]
  | B => exact foldlM_deref m.deref _ ts 0 h
  | C => exact foldlM_deref m.deref _ ts 0 h
  | D => exact foldlM_deref m.deref _ ts 0 h
  | E => exact foldlM_deref (fun ptr => (m.deref_cell ptr).bind m.deref) _ ts 0 h

theorem visited_item_ptrs {σ W : Type} (m : Machine σ W)
    (hp : m.item_ptrs = (List.range m.items.length).map TrianglePtr.item) :
    m.item_ptrs.map m.deref = m.items.map some := by
  rw [hp, List.map_map, ← map_getElem?_range m.items]
  rfl

theorem visited_heap_ptrs {σ W : Type} (m : Machine σ W) (F L : List Triangle)
    (ht : m.triangles = F ++ L)
    (hp : m.item_ptrs = (List.range L.length).map (fun k => TrianglePtr.heap (F.length + k))) :
    m.item_ptrs.map m.deref = L.map some := by
  rw [hp, List.map_map, ← map_getElem?_range_append F L, ← ht]
  rfl

theorem visited_cells {σ W : Type} (m : Machine σ W)
    (hc : m.cells = (List.range m.items.length).map TrianglePtr.item)
    (hp : m.item_ptr_of_ptrs = List.range m.items.length) :
    m.item_ptr_of_ptrs.map (fun ptr => (m.deref_cell ptr).bind m.deref) = m.items.map some := by
  rw [hp, ← map_getElem?_range m.items]
  apply List.map_congr_left
  intro k hk
  have hk' : k < m.items.length := List.mem_range.mp hk
  simp [Machine.deref_cell, hc, List.getElem?_map, List.getElem?_range, hk', Machine.deref]

/-! ## The run of `main`, stage by stage -/

section Stages

variable {σ W : Type} (E : Engine σ) (env : Env W) (SEED N : Nat) (w : W)

theorem stageA_spec :
    ∃ mA : Machine σ W, readyA E env SEED N w = some mA ∧
      mA.heapIs (records E (E.seed SEED) N) [] [] [] [] [] [] [] ∧
      mA.cout = "struct size: " ++ toString env.sizeof_Triangle ++ "\n" ++
        "--- Contiguous data\n" := by
  refine ⟨_, rfl, ?_, ?_⟩
  · simp [Machine.heapIs, buildA, constructItems_eq, Machine.init]
  · simp [buildA, constructItems_eq, Machine.init, String.append_assoc]

theorem stageB_spec (mA : Machine σ W) (recs : List Triangle)
    (hA : readyA E env SEED N w = some mA) (hh : mA.heapIs recs [] [] [] [] [] [] []) :
    ∃ mB : Machine σ W, readyB E env SEED N w = some mB ∧
      mB.heapIs recs ((List.range recs.length).map TrianglePtr.item) [] [] [] [] [] [] ∧
      mB.cout = mA.cout ++ timeLine env (env.meanTime Layout.A (sumAreas recs) mA.world) ++
        "--- Contiguous pointers to contiguous data\n" := by
  obtain ⟨h1, h2, h3, h4, h5, h6, h7, h8⟩ := hh
  have hv : mA.sumOf Layout.A = some (sumAreas recs) :=
    sumOf_of_visited mA Layout.A recs (by simp [Machine.visited, h1])
  refine ⟨_, (by simp only [readyB, hA, Option.some_bind, benchmarkAndPrint_eq env _ mA _ hv,
    Option.map_some']; rfl), ?_, ?_⟩
  · simp [Machine.heapIs, buildB, buildB_fold, h1, h2, h3, h4, h5, h6, h7, h8]
  · simp [buildB, buildB_fold, timeLine, String.append_assoc]

theorem stageC_spec (hN : (N : Int) ≤ INT_MAX) (mB : Machine σ W) (recs : List Triangle)
    (hr : recs = records E (E.seed SEED) N)
    (hB : readyB E env SEED N w = some mB)
    (hh : mB.heapIs recs ((List.range recs.length).map TrianglePtr.item) [] [] [] [] [] []) :
    ∃ mC : Machine σ W, readyC E env SEED N w = some mC ∧
      mC.heapIs recs ((List.range N).map TrianglePtr.heap) [] [] recs [] [] [] ∧
      mC.cout = mB.cout ++ timeLine env (env.meanTime Layout.B (sumAreas recs) mB.world) ++
        "--- Contiguous pointers to scattered data\n" := by
  obtain ⟨h1, h2, h3, h4, h5, h6, h7, h8⟩ := hh
  have hv : mB.sumOf Layout.B = some (sumAreas recs) :=
    sumOf_of_visited mB Layout.B recs (by
      rw [← h1]
      exact visited_item_ptrs mB (by rw [h2, h1]))
  refine ⟨_, (by simp only [readyC, hB, Option.some_bind, benchmarkAndPrint_eq env _ mB _ hv,
    buildC, forLoopSize_eq_forLoop N hN, loopC_eq, Option.map_some']; rfl), ?_, ?_⟩
  · simp [Machine.heapIs, Machine.gen_seed, h1, h3, h4, h5, h6, h7, h8, hr]
  · simp [Machine.gen_seed, timeLine, String.append_assoc]

theorem stageD_spec (hN' : (N : Int) ≤ INT_MAX) (mC : Machine σ W) (recs : List Triangle)
    (hr : recs = records E (E.seed SEED) N)
    (hC : readyC E env SEED N w = some mC)
    (hh : mC.heapIs recs ((List.range N).map TrianglePtr.heap) [] [] recs [] [] []) :
    ∃ (mD : Machine σ W) (sizes : List Nat), sizes.length = N ∧
      readyD E env SEED N w = some mD ∧
      mD.heapIs recs ((List.range N).map (fun k => TrianglePtr.heap (N + k)))
        (List.range N) [] (recs ++ recs) [] (sizes.map (fun s => ⟨s, true⟩)) [] ∧
      mD.cout = mC.cout ++ timeLine env (env.meanTime Layout.C (sumAreas recs) mC.world) ++
        "--- Contiguous pointers to very scattered data\n" := by
  obtain ⟨h1, h2, h3, h4, h5, h6, h7, h8⟩ := hh
  have hN : recs.length = N := by rw [hr, records_length]
  have hv : mC.sumOf Layout.C = some (sumAreas recs) :=
    sumOf_of_visited mC Layout.C recs (visited_heap_ptrs mC [] recs (by simp [h5])
      (by simp [h2, hN]))
  refine ⟨_, (List.range N).map (nthDraw E.uniform_int mC.gen2), by simp,
    (by simp only [readyD, hC, Option.some_bind, benchmarkAndPrint_eq env _ mC _ hv,
      buildD, forLoopSize_eq_forLoop N hN', loopD_eq, Option.map_some']; rfl), ?_, ?_⟩
  · simp [Machine.heapIs, Machine.gen_seed, h1, h3, h4, h5, h6, h7, h8, ← hr, hN]
  · simp [Machine.gen_seed, timeLine, String.append_assoc]

theorem stageX_spec (mD : Machine σ W) (recs : List Triangle) (sizes : List Nat)
    (hr : recs = records E (E.seed SEED) N) (hs : sizes.length = N)
    (hD : readyD E env SEED N w = some mD)
    (hh : mD.heapIs recs ((List.range N).map (fun k => TrianglePtr.heap (N + k)))
        (List.range N) [] (recs ++ recs) [] (sizes.map (fun s => ⟨s, true⟩)) []) :
    ∃ mX : Machine σ W, doneD E env SEED N w = some mX ∧
      mX.heapIs recs ((List.range N).map (fun k => TrianglePtr.heap (N + k)))
        [] [] (recs ++ recs) [] (sizes.map (fun s => ⟨s, false⟩)) (List.range N) ∧
      mX.cout = mD.cout ++ timeLine env (env.meanTime Layout.D (sumAreas recs) mD.world) := by
  obtain ⟨h1, h2, h3, h4, h5, h6, h7, h8⟩ := hh
  have hN : recs.length = N := by rw [hr, records_length]
  have hv : mD.sumOf Layout.D = some (sumAreas recs) :=
    sumOf_of_visited mD Layout.D recs (visited_heap_ptrs mD recs recs h5 (by rw [h2, hN]))
  have hrel := releaseGarbage_eq sizes []
    { mD with
      world := (env.stopTime Layout.D (sumAreas recs) mD.world).2
      time := env.meanTime Layout.D (sumAreas recs) mD.world
      cout := mD.cout ++ "time: " ++ env.show_double (env.meanTime Layout.D (sumAreas recs) mD.world)
        ++ " ms\n" }
    (by simp [h7]) (by simp [h3, hs])
  refine ⟨_, (by simp only [doneD, hD, Option.some_bind, benchmarkAndPrint_eq env _ mD _ hv,
    hrel, Option.map_some']; rfl), ?_, ?_⟩
  · simp [Machine.heapIs, h1, h2, h3, h4, h5, h6, h8]
  · simp [timeLine, String.append_assoc]

theorem stageE_spec (hN' : (N : Int) ≤ INT_MAX) (mX : Machine σ W) (recs : List Triangle)
    (sizes : List Nat)
    (deleted : List Nat) (item_ptrs : List TrianglePtr) (triangles : List Triangle)
    (hr : recs = records E (E.seed SEED) N) (hs : sizes.length = N)
    (hX : doneD E env SEED N w = some mX)
    (hh : mX.heapIs recs item_ptrs [] [] triangles [] (sizes.map (fun s => ⟨s, false⟩)) deleted) :
    ∃ (mE : Machine σ W) (sizesE : List Nat), sizesE.length = N ∧
      readyE E env SEED N w = some mE ∧
      mE.heapIs recs item_ptrs ((List.range N).map (fun k => N + k)) (List.range N) triangles
        ((List.range N).map TrianglePtr.item)
        (sizes.map (fun s => ⟨s, false⟩) ++ sizesE.map (fun s => ⟨s, true⟩)) deleted ∧
      mE.cout = mX.cout ++
        "--- Contiguous pointers to very scattered pointers to contiguous data\n" := by
  obtain ⟨h1, h2, h3, h4, h5, h6, h7, h8⟩ := hh
  have hN : recs.length = N := by rw [hr, records_length]
  refine ⟨_, (List.range N).map (nthDraw E.uniform_int mX.gen2), by simp,
    (by simp only [readyE, hX, Option.some_bind, buildE, forLoopSize_eq_forLoop N hN',
      loopE_eq, Machine.gen_seed, h1, hN, le_refl, Option.map_some']; rfl), ?_, ?_⟩
  · simp [Machine.heapIs, Machine.gen_seed, h1, h2, h3, h4, h5, h6, h7, h8, hs]
  · simp [Machine.gen_seed]

theorem stageF_spec (mE : Machine σ W) (recs : List Triangle) (sizes sizesE : List Nat)
    (deleted : List Nat) (item_ptrs : List TrianglePtr) (triangles : List Triangle)
    (hr : recs = records E (E.seed SEED) N) (hs : sizes.length = N) (hsE : sizesE.length = N)
    (hE : readyE E env SEED N w = some mE)
    (hh : mE.heapIs recs item_ptrs ((List.range N).map (fun k => N + k)) (List.range N) triangles
        ((List.range N).map TrianglePtr.item)
        (sizes.map (fun s => ⟨s, false⟩) ++ sizesE.map (fun s => ⟨s, true⟩)) deleted) :
    ∃ mF : Machine σ W, main E env SEED N w = some (0, mF) ∧
      mF.heapIs recs item_ptrs [] (List.range N) triangles ((List.range N).map TrianglePtr.item)
        (sizes.map (fun s => ⟨s, false⟩) ++ sizesE.map (fun s => ⟨s, false⟩))
        (deleted ++ (List.range N).map (fun k => N + k)) ∧
      mF.cout = mE.cout ++ timeLine env (env.meanTime Layout.E (sumAreas recs) mE.world) := by
  obtain ⟨h1, h2, h3, h4, h5, h6, h7, h8⟩ := hh
  have hN : recs.length = N := by rw [hr, records_length]
  have hv : mE.sumOf Layout.E = some (sumAreas recs) :=
    sumOf_of_visited mE Layout.E recs (by
      rw [← h1]
      exact visited_cells mE (by rw [h6, h1, hN]) (by rw [h4, h1, hN]))
  have hrel := releaseGarbage_eq sizesE (sizes.map (fun s => ⟨s, false⟩))
    { mE with
      world := (env.stopTime Layout.E (sumAreas recs) mE.world).2
      time := env.meanTime Layout.E (sumAreas recs) mE.world
      cout := mE.cout ++ "time: " ++ env.show_double (env.meanTime Layout.E (sumAreas recs) mE.world)
        ++ " ms\n" }
    (by simp [h7]) (by simp [h3, hs, hsE])
  refine ⟨_, (by simp only [main, hE, Option.some_bind, benchmarkAndPrint_eq env _ mE _ hv,
    hrel, Option.map_some']; rfl), ?_, ?_⟩
  · simp [Machine.heapIs, h1, h2, h3, h4, h5, h6, h8]
  · simp [timeLine, String.append_assoc]

end Stages

/-! ## Independence of the two streams -/

theorem range_map_nthDraw_succ {σ α : Type} (draw : σ → α × σ) (g : σ) (n : Nat) :
    (List.range (n + 1)).map (nthDraw draw g) =
      (draw g).1 :: (List.range n).map (nthDraw draw (draw g).2) := by
  rw [List.range_succ_eq_map, List.map_cons, List.map_map]
  congr 1

theorem runDraws_spec {σ W : Type} (E : Engine σ) (ops : List Draw) :
    ∀ m : Machine σ W,
      (runDraws E ops m).1.filterMap Sum.getLeft? =
        (List.range (ops.count Draw.float)).map (nthDraw E.uniform_real m.gen) ∧
      (runDraws E ops m).1.filterMap Sum.getRight? =
        (List.range (ops.count Draw.int)).map (nthDraw E.uniform_int m.gen2) ∧
      (runDraws E ops m).2.gen = (fun g => (E.uniform_real g).2)^[ops.count Draw.float] m.gen ∧
      (runDraws E ops m).2.gen2 = (fun g => (E.uniform_int g).2)^[ops.count Draw.int] m.gen2 := by
  induction ops with
  | nil => intro m; simp [runDraws]
  | cons d ds ih =>
    intro m
    cases d with
    | float =>
      obtain ⟨h1, h2, h3, h4⟩ := ih (m.next_float E).2
      simp only [runDraws, List.count_cons_self, range_map_nthDraw_succ]
      refine ⟨?_, ?_, ?_, ?_⟩
      · simpa [Machine.next_float] using h1
      · simpa [Machine.next_float] using h2
      · simpa [Machine.next_float] using h3
      · simpa [Machine.next_float] using h4
    | int =>
      obtain ⟨h1, h2, h3, h4⟩ := ih (m.next_int E).2
      simp only [runDraws, List.count_cons_self, range_map_nthDraw_succ]
      refine ⟨?_, ?_, ?_, ?_⟩
      · simpa [Machine.next_int] using h1
      · simpa [Machine.next_int] using h2
      · simpa [Machine.next_int] using h3
      · simpa [Machine.next_int] using h4

/-- C5: after `gen.seed(SEED)`, the results of the calls of `next_float` in any
sequence of calls of `next_float` and `next_int` are the first values of the
float stream of `SEED`, as many as there are calls of `next_float`: the `k`-th
result depends on `k` alone, not on the calls of `next_int` nor on the state of
`gen2`. Symmetrically the results of the calls of `next_int` are the first values
of the integer stream from the current state of `gen2`, whatever the calls of
`next_float` and the state of `gen`; `next_float` leaves `gen2` as it is and
`next_int` leaves `gen` as it is. -/
theorem streams_independent {σ W : Type} (E : Engine σ) (SEED : Nat) (ops : List Draw)
    (m : Machine σ W) :
    (runDraws E ops (m.gen_seed E SEED)).1.filterMap Sum.getLeft? =
        (List.range (ops.count Draw.float)).map (nthDraw E.uniform_real (E.seed SEED)) ∧
    (runDraws E ops m).1.filterMap Sum.getRight? =
        (List.range (ops.count Draw.int)).map (nthDraw E.uniform_int m.gen2) ∧
    (m.next_float E).2.gen2 = m.gen2 ∧ (m.next_int E).2.gen = m.gen :=
  ⟨(runDraws_spec E ops (m.gen_seed E SEED)).1, (runDraws_spec E ops m).2.1, rfl, rfl⟩

/-! ## The whole run -/

/-- Every stage of `main` is reached, with the vectors and the heap in closed
form and the text written so far. -/
theorem run_spec {σ W : Type} (E : Engine σ) (env : Env W) (SEED N : Nat) (w : W)
    (hN : (N : Int) ≤ INT_MAX) :
    ∃ (mA mB mC mD mX mE mF : Machine σ W) (sD sE : List Nat),
      sD.length = N ∧ sE.length = N ∧
      readyA E env SEED N w = some mA ∧ readyB E env SEED N w = some mB ∧
      readyC E env SEED N w = some mC ∧ readyD E env SEED N w = some mD ∧
      doneD E env SEED N w = some mX ∧ readyE E env SEED N w = some mE ∧
      main E env SEED N w = some (0, mF) ∧
      mA.heapIs (records E (E.seed SEED) N) [] [] [] [] [] [] [] ∧
      mB.heapIs (records E (E.seed SEED) N) ((List.range N).map TrianglePtr.item)
        [] [] [] [] [] [] ∧
      mC.heapIs (records E (E.seed SEED) N) ((List.range N).map TrianglePtr.heap)
        [] [] (records E (E.seed SEED) N) [] [] [] ∧
      mD.heapIs (records E (E.seed SEED) N)
        ((List.range N).map (fun k => TrianglePtr.heap (N + k))) (List.range N) []
        (records E (E.seed SEED) N ++ records E (E.seed SEED) N) []
        (sD.map (fun s => ⟨s, true⟩)) [] ∧
      mX.heapIs (records E (E.seed SEED) N)
        ((List.range N).map (fun k => TrianglePtr.heap (N + k))) [] []
        (records E (E.seed SEED) N ++ records E (E.seed SEED) N) []
        (sD.map (fun s => ⟨s, false⟩)) (List.range N) ∧
      mE.heapIs (records E (E.seed SEED) N)
        ((List.range N).map (fun k => TrianglePtr.heap (N + k)))
        ((List.range N).map (fun k => N + k)) (List.range N)
        (records E (E.seed SEED) N ++ records E (E.seed SEED) N)
        ((List.range N).map TrianglePtr.item)
        (sD.map (fun s => ⟨s, false⟩) ++ sE.map (fun s => ⟨s, true⟩)) (List.range N) ∧
      mF.heapIs (records E (E.seed SEED) N)
        ((List.range N).map (fun k => TrianglePtr.heap (N + k))) [] (List.range N)
        (records E (E.seed SEED) N ++ records E (E.seed SEED) N)
        ((List.range N).map TrianglePtr.item)
        (sD.map (fun s => ⟨s, false⟩) ++ sE.map (fun s => ⟨s, false⟩))
        (List.range N ++ (List.range N).map (fun k => N + k)) ∧
      mA.cout = "struct size: " ++ toString env.sizeof_Triangle ++ "\n" ++
        "--- Contiguous data\n" ∧
      mB.cout = mA.cout ++
        timeLine env (env.meanTime Layout.A (sumAreas (records E (E.seed SEED) N)) mA.world) ++
        "--- Contiguous pointers to contiguous data\n" ∧
      mC.cout = mB.cout ++
        timeLine env (env.meanTime Layout.B (sumAreas (records E (E.seed SEED) N)) mB.world) ++
        "--- Contiguous pointers to scattered data\n" ∧
      mD.cout = mC.cout ++
        timeLine env (env.meanTime Layout.C (sumAreas (records E (E.seed SEED) N)) mC.world) ++
        "--- Contiguous pointers to very scattered data\n" ∧
      mX.cout = mD.cout ++
        timeLine env (env.meanTime Layout.D (sumAreas (records E (E.seed SEED) N)) mD.world) ∧
      mE.cout = mX.cout ++
        "--- Contiguous pointers to very scattered pointers to contiguous data\n" ∧
      mF.cout = mE.cout ++
        timeLine env (env.meanTime Layout.E (sumAreas (records E (E.seed SEED) N)) mE.world) := by
  have hl : (records E (E.seed SEED) N).length = N := records_length _ _ _
  obtain ⟨mA, hA, hhA, hcA⟩ := stageA_spec E env SEED N w
  obtain ⟨mB, hB, hhB, hcB⟩ := stageB_spec E env SEED N w mA _ hA hhA
  obtain ⟨mC, hC, hhC, hcC⟩ := stageC_spec E env SEED N w hN mB _ rfl hB hhB
  obtain ⟨mD, sD, hsD, hD, hhD, hcD⟩ := stageD_spec E env SEED N w hN mC _ rfl hC hhC
  obtain ⟨mX, hX, hhX, hcX⟩ := stageX_spec E env SEED N w mD _ sD rfl hsD hD hhD
  obtain ⟨mE, sE, hsE, hE, hhE, hcE⟩ :=
    stageE_spec E env SEED N w hN mX _ sD _ _ _ rfl hsD hX hhX
  obtain ⟨mF, hF, hhF, hcF⟩ := stageF_spec E env SEED N w mE _ sD sE _ _ _ rfl hsD hsE hE hhE
  rw [hl] at hhB
  exact ⟨mA, mB, mC, mD, mX, mE, mF, sD, sE, hsD, hsE, hA, hB, hC, hD, hX, hE, hF,
    hhA, hhB, hhC, hhD, hhX, hhE, hhF, hcA, hcB, hcC, hcD, hcX, hcE, hcF⟩

/-! ### What each workload visits in its ready state -/

section Visited

variable {σ W : Type} {m : Machine σ W} {recs tris : List Triangle} {N : Nat}
  {ptrs cells : List TrianglePtr} {garbage ipp deleted : List Nat} {fillers : List Filler}

theorem visitedA_of_heapIs (h : m.heapIs recs ptrs garbage ipp tris cells fillers deleted) :
    m.visited Layout.A = recs.map some := by
  simp [Machine.visited, h.1]

theorem visitedB_of_heapIs (hN : recs.length = N)
    (h : m.heapIs recs ((List.range N).map TrianglePtr.item) garbage ipp tris cells fillers
      deleted) :
    m.visited Layout.B = recs.map some := by
  obtain ⟨h1, h2, -⟩ := h
  rw [← h1]
  exact visited_item_ptrs m (by rw [h2, h1, hN])

theorem visitedC_of_heapIs (hN : recs.length = N)
    (h : m.heapIs recs ((List.range N).map TrianglePtr.heap) garbage ipp recs cells fillers
      deleted) :
    m.visited Layout.C = recs.map some := by
  obtain ⟨-, h2, -, -, h5, -⟩ := h
  exact visited_heap_ptrs m [] recs (by simp [h5]) (by simp [h2, hN])

theorem visitedD_of_heapIs (hN : recs.length = N)
    (h : m.heapIs recs ((List.range N).map (fun k => TrianglePtr.heap (N + k))) garbage ipp
      (recs ++ recs) cells fillers deleted) :
    m.visited Layout.D = recs.map some := by
  obtain ⟨-, h2, -, -, h5, -⟩ := h
  exact visited_heap_ptrs m recs recs h5 (by rw [h2, hN])

theorem visitedE_of_heapIs (hN : recs.length = N)
    (h : m.heapIs recs ptrs garbage (List.range N) tris ((List.range N).map TrianglePtr.item)
      fillers deleted) :
    m.visited Layout.E = recs.map some := by
  obtain ⟨h1, -, -, h4, -, h6, -⟩ := h
  rw [← h1]
  exact visited_cells m (by rw [h6, h1, hN]) (by rw [h4, h1, hN])

end Visited

/-! ## Beyond the range of `int` -/

section Overflow

variable {σ W : Type} (E : Engine σ) (env : Env W) (SEED N : Nat) (w : W)

end Overflow

theorem outstanding_append {σ W : Type} (m : Machine σ W) (dead live : List Nat)
    (h : m.fillers = dead.map (fun s => ⟨s, false⟩) ++ live.map (fun s => ⟨s, true⟩)) :
    m.outstanding = live.length := by
  have h1 : ∀ l : List Nat, (l.map (fun s => (⟨s, false⟩ : Filler))).filter (fun f => f.live) = [] := by
    intro l
    induction l with
    | nil => rfl
    | cons a l ih => simp [List.filter_cons, ih]
  have h2 : ∀ l : List Nat, ((l.map (fun s => (⟨s, true⟩ : Filler))).filter (fun f => f.live)).length
      = l.length := by
    intro l
    induction l with
    | nil => rfl
    | cons a l ih => simp [List.filter_cons, ih]
  rw [Machine.outstanding, h, List.filter_append, h1, List.nil_append, h2]

theorem range_append_shift (N : Nat) :
    List.range N ++ (List.range N).map (fun k => N + k) = List.range (2 * N) := by
  rw [two_mul, List.range_add]

/-- C7: the fillers are released at the scenario boundaries, for every dataset
size within the range of the loop counter `int i`, which includes the shipped
`NUM_ITEMS = 50000000`. When the workload
of D is measured its `N` fillers are the outstanding ones; when scenario E
begins every one of them has been passed to `delete[]` exactly once, none is
outstanding and `garbage` is empty; when the workload of E is measured the
outstanding fillers are the `N` new ones of E and none of D; when `main` returns
every filler of E too has been passed to `delete[]` exactly once, none is
outstanding, `garbage` is empty, and no address was released twice. -/
theorem fillers_released_at_boundaries {σ W : Type} (E : Engine σ) (env : Env W)
    (SEED N : Nat) (w : W) (hN : (N : Int) ≤ INT_MAX) :
    ∃ (mD mX mE mF : Machine σ W) (sD sE : List Nat),
      sD.length = N ∧ sE.length = N ∧
      readyD E env SEED N w = some mD ∧ doneD E env SEED N w = some mX ∧
      readyE E env SEED N w = some mE ∧ main E env SEED N w = some (0, mF) ∧
      (mD.fillers = sD.map (fun s => ⟨s, true⟩) ∧ mD.garbage = List.range N ∧
        mD.deleted = [] ∧ mD.outstanding = N) ∧
      (mX.fillers = sD.map (fun s => ⟨s, false⟩) ∧ mX.garbage = [] ∧
        mX.deleted = List.range N ∧ mX.outstanding = 0) ∧
      (mE.fillers = sD.map (fun s => ⟨s, false⟩) ++ sE.map (fun s => ⟨s, true⟩) ∧
        mE.garbage = (List.range N).map (fun k => N + k) ∧
        mE.deleted = List.range N ∧ mE.outstanding = N) ∧
      (mF.fillers = sD.map (fun s => ⟨s, false⟩) ++ sE.map (fun s => ⟨s, false⟩) ∧
        mF.garbage = [] ∧ mF.deleted = List.range (2 * N) ∧ mF.outstanding = 0 ∧
        mF.deleted.Nodup ∧ ∀ a, a < 2 * N → mF.deleted.count a = 1) := by
  obtain ⟨mA, mB, mC, mD, mX, mE, mF, sD, sE, hsD, hsE, hA, hB, hC, hD, hX, hE, hF,
    hhA, hhB, hhC, hhD, hhX, hhE, hhF, -⟩ := run_spec E env SEED N w hN
  obtain ⟨-, -, gD, -, -, -, fD, dD⟩ := hhD
  obtain ⟨-, -, gX, -, -, -, fX, dX⟩ := hhX
  obtain ⟨-, -, gE, -, -, -, fE, dE⟩ := hhE
  obtain ⟨-, -, gF, -, -, -, fF, dF⟩ := hhF
  rw [range_append_shift] at dF
  refine ⟨mD, mX, mE, mF, sD, sE, hsD, hsE, hD, hX, hE, hF, ⟨fD, gD, dD, ?_⟩,
    ⟨fX, gX, dX, ?_⟩, ⟨fE, gE, dE, ?_⟩, ⟨fF, gF, dF, ?_, ?_, ?_⟩⟩
  · rw [outstanding_append mD [] sD (by simp [fD]), hsD]
  · rw [outstanding_append mX sD [] (by simp [fX])]
    rfl
  · rw [outstanding_append mE sD sE fE, hsE]
  · have : mF.fillers = (sD ++ sE).map (fun s => ⟨s, false⟩) ++
        ([] : List Nat).map (fun s => ⟨s, true⟩) := by simp [fF]
    rw [outstanding_append mF (sD ++ sE) [] this]
    rfl
  · rw [dF]
    exact List.nodup_range _
  · intro a ha
    rw [dF]
    exact List.count_eq_one_of_mem (List.nodup_range _) (List.mem_range.mpr ha)

theorem fillers_released_at_boundaries_witness :
    ((50000000 : Nat) : Int) ≤ INT_MAX ∧
    ∃ mD mX mE mF : Machine Nat Nat,
      readyD sampleEngine sampleEnv 42 50000000 0 = some mD ∧
      doneD sampleEngine sampleEnv 42 50000000 0 = some mX ∧
      readyE sampleEngine sampleEnv 42 50000000 0 = some mE ∧
      main sampleEngine sampleEnv 42 50000000 0 = some (0, mF) ∧
      mD.outstanding = 50000000 ∧
      (mX.outstanding = 0 ∧ mX.garbage = [] ∧ mX.deleted = List.range 50000000) ∧
      mE.outstanding = 50000000 ∧
      (mF.outstanding = 0 ∧ mF.garbage = [] ∧ mF.deleted = List.range (2 * 50000000) ∧
        mF.deleted.Nodup) := by
  obtain ⟨mD, mX, mE, mF, sD, sE, -, -, hD, hX, hE, hF, ⟨-, -, -, oD⟩, ⟨-, gX, dX, oX⟩,
    ⟨-, -, -, oE⟩, ⟨-, gF, dF, oF, nF, -⟩⟩ :=
    fillers_released_at_boundaries sampleEngine sampleEnv 42 50000000 0 (by decide)
  exact ⟨by decide, mD, mX, mE, mF, hD, hX, hE, hF, oD, ⟨oX, gX, dX⟩, oE, ⟨oF, gF, dF, nF⟩⟩

/-- C9: for every dataset size within the range of the loop counter `int i`,
which includes the shipped `NUM_ITEMS = 50000000`, a run of the program returns exit status `0` and writes exactly eleven
lines: the size line, then for each of A, B, C, D, E, in this order, its label
line and the line `time: <mean_ms> ms` in which `<mean_ms>` is the value returned
by `benchmark(5, 2, ...)` on the workload of that layout. -/
theorem output_eleven_lines {σ W : Type} (E : Engine σ) (env : Env W)
    (SEED N : Nat) (w : W) (hN : (N : Int) ≤ INT_MAX) :
    ∃ (mA mB mC mD mE mF sA sB sC sD sE : Machine σ W) (rA rB rC rD rE : ℚ),
      readyA E env SEED N w = some mA ∧ readyB E env SEED N w = some mB ∧
      readyC E env SEED N w = some mC ∧ readyD E env SEED N w = some mD ∧
      readyE E env SEED N w = some mE ∧
      benchmark (clock env) 5 2 (workload env Layout.A) mA = some (rA, sA) ∧
      benchmark (clock env) 5 2 (workload env Layout.B) mB = some (rB, sB) ∧
      benchmark (clock env) 5 2 (workload env Layout.C) mC = some (rC, sC) ∧
      benchmark (clock env) 5 2 (workload env Layout.D) mD = some (rD, sD) ∧
      benchmark (clock env) 5 2 (workload env Layout.E) mE = some (rE, sE) ∧
      main E env SEED N w = some (0, mF) ∧
      mF.cout = String.join
        [ "struct size: " ++ toString env.sizeof_Triangle ++ "\n",
          "--- Contiguous data\n",
          "time: " ++ env.show_double rA ++ " ms\n",
          "--- Contiguous pointers to contiguous data\n",
          "time: " ++ env.show_double rB ++ " ms\n",
          "--- Contiguous pointers to scattered data\n",
          "time: " ++ env.show_double rC ++ " ms\n",
          "--- Contiguous pointers to very scattered data\n",
          "time: " ++ env.show_double rD ++ " ms\n",
          "--- Contiguous pointers to very scattered pointers to contiguous data\n",
          "time: " ++ env.show_double rE ++ " ms\n" ] := by
  obtain ⟨mA, mB, mC, mD, mX, mE, mF, sD, sE, hsD, hsE, hA, hB, hC, hD, hX, hE, hF,
    hhA, hhB, hhC, hhD, hhX, hhE, hhF, cA, cB, cC, cD, cX, cE, cF⟩ := run_spec E env SEED N w hN
  have hl : (records E (E.seed SEED) N).length = N := records_length _ _ _
  have vA := sumOf_of_visited _ _ _ (visitedA_of_heapIs hhA)
  have vB := sumOf_of_visited _ _ _ (visitedB_of_heapIs hl hhB)
  have vC := sumOf_of_visited _ _ _ (visitedC_of_heapIs hl hhC)
  have vD := sumOf_of_visited _ _ _ (visitedD_of_heapIs hl hhD)
  have vE := sumOf_of_visited _ _ _ (visitedE_of_heapIs hl hhE)
  refine ⟨mA, mB, mC, mD, mE, mF, _, _, _, _, _, _, _, _, _, _, hA, hB, hC, hD, hE,
    benchmark_workload env _ mA _ vA, benchmark_workload env _ mB _ vB,
    benchmark_workload env _ mC _ vC, benchmark_workload env _ mD _ vD,
    benchmark_workload env _ mE _ vE, hF, ?_⟩
  rw [cF, cE, cX, cD, cC, cB, cA]
  simp [String.join, timeLine, String.append_assoc]

theorem output_eleven_lines_witness :
    ((50000000 : Nat) : Int) ≤ INT_MAX ∧
    ∃ (mF : Machine Nat Nat) (rA rB rC rD rE : ℚ),
      main sampleEngine sampleEnv 42 50000000 0 = some (0, mF) ∧
      mF.cout = String.join
        [ "struct size: " ++ toString sampleEnv.sizeof_Triangle ++ "\n",
          "--- Contiguous data\n",
          "time: " ++ sampleEnv.show_double rA ++ " ms\n",
          "--- Contiguous pointers to contiguous data\n",
          "time: " ++ sampleEnv.show_double rB ++ " ms\n",
          "--- Contiguous pointers to scattered data\n",
          "time: " ++ sampleEnv.show_double rC ++ " ms\n",
          "--- Contiguous pointers to very scattered data\n",
          "time: " ++ sampleEnv.show_double rD ++ " ms\n",
          "--- Contiguous pointers to very scattered pointers to contiguous data\n",
          "time: " ++ sampleEnv.show_double rE ++ " ms\n" ] := by
  obtain ⟨mA, mB, mC, mD, mE, mF, sA, sB, sC, sD, sE, rA, rB, rC, rD, rE, -, -, -, -, -,
    -, -, -, -, -, hF, hc⟩ :=
    output_eleven_lines sampleEngine sampleEnv 42 50000000 0 (by decide)
  exact ⟨by decide, mF, rA, rB, rC, rD, rE, hF, hc⟩

end IterationBenchmark
